import Mathlib

/-!
Verification of the BexRs lexing core (`src/lexer.rs`).

The Rust source defines a generic buffer `Lexer<T>` holding a vector of
elements and a cursor index, together with:
  * `Lexer::new`            — construction from a slice, cursor 0;
  * `Lexer::extract`        — destructive removal of a half-open index
                              range with cursor repositioning;
  * the `Token` trait and a blanket bridge implementation that lets any
    `ScopedToken` implementation act as a `Token` by invoking it with a
    freshly default-constructed scope;
  * `Lexer::tokenize_until_end` — the driver loop;
  * the `Analyser` implementation (`contents`, `pos`, `drain`, `set_pos`).

We embed these shallowly: `Vec<T>` becomes `List T`, `usize` becomes `Nat`
(the source guards every subtraction, so Nat truncation never diverges from
the machine behaviour), `&mut` state becomes explicit state passing, and
`Result` becomes `Except`.
-/

namespace BexRs

/-- Placeholder for `std::io::Error`; the core never constructs one, it only
appears in result types. -/
inductive IoError : Type where
  | other : IoError
  deriving DecidableEq, Repr

/-- Embedding of `Lexer<T>`: a cursor index and the owned contents. -/
structure Lexer (T : Type) where
  cursor : Nat
  contents : List T
  deriving DecidableEq, Repr

/-- `Lexer::new`: copies the input into owned contents, cursor 0. -/
def Lexer.new {T : Type} (content : List T) : Lexer T :=
  { cursor := 0, contents := content }

/-- `Lexer::extract(range)` for `range = start..stop` (the Rust `range.end`
is written `stop` since `end` is a Lean keyword).  `Vec::drain(start..stop)`
removes the elements at indices `start..stop` (in bounds: `start ≤ stop ≤ len`,
otherwise Rust panics — our theorems carry those bounds as hypotheses) and
yields them in order; afterwards the cursor is adjusted exactly as in the
source:

    if start <= self.cursor && self.cursor < end { self.cursor = start; }
    else if end < self.cursor { self.cursor -= end; }

Returns the extraction result together with the mutated lexer. -/
def Lexer.extract {T : Type} (l : Lexer T) (start stop : Nat) :
    List T × Lexer T :=
  let extraction_result := (l.contents.drop start).take (stop - start)
  let remaining := l.contents.take start ++ l.contents.drop stop
  let cursor' :=
    if start ≤ l.cursor ∧ l.cursor < stop then start
    else if stop < l.cursor then l.cursor - stop
    else l.cursor
  (extraction_result, { cursor := cursor', contents := remaining })

/-- `Analyser::contents` for `Lexer`: the full element sequence. -/
def Lexer.contentsView {T : Type} (l : Lexer T) : List T :=
  l.contents

/-- `Analyser::pos` for `Lexer`: the current cursor. -/
def Lexer.pos {T : Type} (l : Lexer T) : Nat :=
  l.cursor

/-- `Analyser::drain` for `Lexer`: consumes the lexer, returning the
contents. -/
def Lexer.drainAll {T : Type} (l : Lexer T) : List T :=
  l.contents

/-- `Analyser::set_pos` for `Lexer`:
`fn set_pos(&mut self, position: usize) -> io::Result<()> { Ok(self.cursor = position) }` —
unconditionally overwrites the cursor and returns `Ok(())`.  The mutated
state is made explicit in the success payload. -/
def Lexer.set_pos {T : Type} (l : Lexer T) (position : Nat) :
    Except IoError (Lexer T) :=
  .ok { l with cursor := position }

/-- The behaviour of a `Token<T>` implementation's `next_token`: it receives
the lexer by mutable reference and returns `Result<Self, Error>`; we pass the
state explicitly, so success carries the token and the mutated lexer. -/
def NextToken (T tok err : Type) : Type :=
  Lexer T → Except err (tok × Lexer T)

/-- The behaviour of a `ScopedToken<T>` implementation's `next_token`: it
additionally receives the scope by mutable reference, so success also
carries the mutated scope. -/
def ScopedNext (T scope tok err : Type) : Type :=
  Lexer T → scope → Except err (tok × Lexer T × scope)

/-- The blanket impl `impl<T, Scoped: ScopedToken<T>> Token<T> for Scoped`
from the source:

    fn next_token(lexer) -> Result<Self, Self::Error> {
        <Scoped as ScopedToken<T>>::next_token(lexer, &mut Scoped::Scope::default())
    }

`dflt` stands for `Scoped::Scope::default()`; the temporary holding the
mutated scope dies at the end of the call, so only the token and the mutated
lexer survive. -/
def bridgeNext {T scope tok err : Type} (dflt : scope)
    (f : ScopedNext T scope tok err) : NextToken T tok err :=
  fun lexer =>
    match f lexer dflt with
    | .error e => .error e
    | .ok (t, lexer', _) => .ok (t, lexer')

/-- Spec-side rendering of the bridge, following the spec's words: every
`ScopedToken` implementation satisfies `Token` "by constructing a fresh
default `Scope` value, invoking the scoped variant once, and discarding the
scope afterward". -/
def specFreshScopeCall {T scope tok err : Type} (dflt : scope)
    (f : ScopedNext T scope tok err) : NextToken T tok err :=
  fun lexer => (f lexer dflt).map (fun r => (r.1, r.2.1))

/-- Modelled from the spec: the `Analyser` trait's end-of-input query
`is_end` lives in the `read` module, which is not part of this repository
snapshot; the spec describes it as the buffer reporting exhaustion when the
cursor is at the end of the contents, so any position at or beyond the end
counts as exhausted. -/
def Lexer.is_end {T : Type} (l : Lexer T) : Bool :=
  decide (l.contents.length ≤ l.cursor)

/-- `Lexer::tokenize_until_end`, instrumented with fuel (the Rust loop need
not terminate, e.g. for a `next_token` that never advances) and with a count
of the `next_token` calls performed:

    let mut tokens = vec![];
    while !self.is_end() {
        tokens.push(TokenType::next_token(&mut self)?)
    }
    Ok(tokens)

`none` means the fuel ran out before the loop finished; otherwise the result
is the number of `next_token` calls made, paired with the value the Rust
function returns. -/
def tokenizeSteps {T tok err : Type} (next : NextToken T tok err) :
    Nat → Lexer T → Option (Nat × Except err (List tok))
  | 0, l => if l.is_end then some (0, .ok []) else none
  | fuel + 1, l =>
    if l.is_end then some (0, .ok [])
    else
      match next l with
      | .error e => some (1, .error e)
      | .ok (t, l') =>
        match tokenizeSteps next fuel l' with
        | none => none
        | some (n, .error e) => some (n + 1, .error e)
        | some (n, .ok ts) => some (n + 1, .ok (t :: ts))

/-- `Lexer::tokenize_until_end` proper: just the returned
`Result<Vec<TokenType>, TokenType::Error>` (with `none` for exhausted
fuel). -/
def tokenize_until_end {T tok err : Type} (next : NextToken T tok err)
    (fuel : Nat) (l : Lexer T) : Option (Except err (List tok)) :=
  (tokenizeSteps next fuel l).map Prod.snd

/-- `k` successful loop iterations of `tokenize_until_end`: from `l`, the
loop guard `!is_end` passes and `next` succeeds `k` times in a row, ending
in the returned lexer state.  `none` if the loop would instead stop or
fail within those `k` iterations. -/
def runOk {T tok err : Type} (next : NextToken T tok err) :
    Nat → Lexer T → Option (Lexer T)
  | 0, l => some l
  | k + 1, l =>
    if l.is_end then none
    else
      match next l with
      | .error _ => none
      | .ok (_, l') => runOk next k l'

/-- The spec's cursor invariant: the cursor lies in `[0, len(contents)]`. -/
def Lexer.cursorInv {T : Type} (l : Lexer T) : Prop :=
  l.cursor ≤ l.contents.length

instance {T : Type} (l : Lexer T) : Decidable l.cursorInv := by
  unfold Lexer.cursorInv; infer_instance

end BexRs

namespace BexRs

/-- C1: in-bounds `extract` with the cursor strictly after `stop` leaves the
cursor at `cursor_before - stop` (the literal source policy: decrement by
`end`, not by the removed length `end - start`). -/
theorem extract_cursor_after (T : Type) (l : Lexer T) (start stop : Nat)
    (hse : start ≤ stop) (hlen : stop ≤ l.contents.length)
    (hc : stop < l.cursor) :
    ((l.extract start stop).2).cursor = l.cursor - stop := by
  have h1 : ¬ (start ≤ l.cursor ∧ l.cursor < stop) := by omega
  simp only [Lexer.extract, h1, if_false, if_pos hc]

/-- Witness for C1 at `contents = [10,20,30,40,50]`, `cursor = 4`,
`extract 1 3`: the post-call cursor is `4 - 3 = 1`. -/
theorem extract_cursor_after_witness :
    (({ cursor := 4, contents := [10, 20, 30, 40, 50] } :
        Lexer Nat).extract 1 3).2.cursor = 4 - 3 :=
  extract_cursor_after Nat
    { cursor := 4, contents := [10, 20, 30, 40, 50] } 1 3
    (by decide) (by decide) (by decide)

/-- C3: in-bounds `extract` with the cursor strictly inside the removed range
(`start ≤ cursor < stop`) resets the cursor to `start`. -/
theorem extract_cursor_inside (T : Type) (l : Lexer T) (start stop : Nat)
    (hse : start ≤ stop) (hlen : stop ≤ l.contents.length)
    (h1 : start ≤ l.cursor) (h2 : l.cursor < stop) :
    ((l.extract start stop).2).cursor = start := by
  simp only [Lexer.extract, if_pos (And.intro h1 h2)]

/-- Witness for C3 at `contents = [10,20,30,40,50]`, `cursor = 2`,
`extract 1 3`: the post-call cursor is `1`. -/
theorem extract_cursor_inside_witness :
    (({ cursor := 2, contents := [10, 20, 30, 40, 50] } :
        Lexer Nat).extract 1 3).2.cursor = 1 :=
  extract_cursor_inside Nat
    { cursor := 2, contents := [10, 20, 30, 40, 50] } 1 3
    (by decide) (by decide) (by decide) (by decide)

/-- C4: in-bounds `extract` with the cursor before the removed range
(`cursor < start`) or exactly at `stop` leaves the cursor unchanged. -/
theorem extract_cursor_before_or_at_stop (T : Type) (l : Lexer T)
    (start stop : Nat) (hse : start ≤ stop) (hlen : stop ≤ l.contents.length)
    (hc : l.cursor < start ∨ l.cursor = stop) :
    ((l.extract start stop).2).cursor = l.cursor := by
  have h1 : ¬ (start ≤ l.cursor ∧ l.cursor < stop) := by omega
  have h2 : ¬ stop < l.cursor := by omega
  simp only [Lexer.extract, h1, h2, if_false]

/-- Witness for C4 at `contents = [10,20,30,40,50]`, `cursor = 0`,
`extract 1 3`: the post-call cursor is still `0`. -/
theorem extract_cursor_before_witness :
    (({ cursor := 0, contents := [10, 20, 30, 40, 50] } :
        Lexer Nat).extract 1 3).2.cursor = 0 :=
  extract_cursor_before_or_at_stop Nat
    { cursor := 0, contents := [10, 20, 30, 40, 50] } 1 3
    (by decide) (by decide) (Or.inl (by decide))

/-- C5: in-bounds `extract start stop` returns exactly the elements at
indices `start..stop` of the pre-call contents, in order, and the post-call
contents are the pre-call prefix `[0, start)` followed by the pre-call
suffix `[stop, len)`, in order.  Stated elementwise through indexed
lookups so it genuinely relates the result to the original contents. -/
theorem extract_slices (T : Type) (l : Lexer T) (start stop : Nat)
    (hse : start ≤ stop) (hlen : stop ≤ l.contents.length) :
    ((l.extract start stop).1.length = stop - start ∧
      ∀ i : Nat, i < stop - start →
        (l.extract start stop).1.get? i = l.contents.get? (start + i)) ∧
    ((l.extract start stop).2.contents.length
        = l.contents.length - (stop - start) ∧
      (∀ i : Nat, i < start →
        (l.extract start stop).2.contents.get? i = l.contents.get? i) ∧
      (∀ i : Nat, start ≤ i →
        (l.extract start stop).2.contents.get? i
          = l.contents.get? (i + (stop - start)))) := by
  simp only [Lexer.extract]
  refine ⟨⟨?_, ?_⟩, ?_, ?_, ?_⟩
  · simp only [List.length_take, List.length_drop]
    omega
  · intro i hi
    rw [List.get?_take (by omega), List.get?_drop]
  · simp only [List.length_append, List.length_take, List.length_drop]
    omega
  · intro i hi
    rw [List.get?_append (by simp only [List.length_take]; omega),
        List.get?_take hi]
  · intro i hi
    rw [List.get?_append_right (by simp only [List.length_take]; omega),
        List.get?_drop]
    simp only [List.length_take]
    congr 1
    omega

/-- Witness for C5 at `contents = [10,20,30,40,50]`, `extract 1 3`. -/
theorem extract_slices_witness :
    ((({ cursor := 0, contents := [10, 20, 30, 40, 50] } :
        Lexer Nat).extract 1 3).1.length = 3 - 1 ∧
      ∀ i : Nat, i < 3 - 1 →
        (({ cursor := 0, contents := [10, 20, 30, 40, 50] } :
          Lexer Nat).extract 1 3).1.get? i
          = ([10, 20, 30, 40, 50] : List Nat).get? (1 + i)) ∧
    ((({ cursor := 0, contents := [10, 20, 30, 40, 50] } :
        Lexer Nat).extract 1 3).2.contents.length = 5 - (3 - 1) ∧
      (∀ i : Nat, i < 1 →
        (({ cursor := 0, contents := [10, 20, 30, 40, 50] } :
          Lexer Nat).extract 1 3).2.contents.get? i
          = ([10, 20, 30, 40, 50] : List Nat).get? i) ∧
      (∀ i : Nat, 1 ≤ i →
        (({ cursor := 0, contents := [10, 20, 30, 40, 50] } :
          Lexer Nat).extract 1 3).2.contents.get? i
          = ([10, 20, 30, 40, 50] : List Nat).get? (i + (3 - 1)))) :=
  extract_slices Nat { cursor := 0, contents := [10, 20, 30, 40, 50] } 1 3
    (by decide) (by decide)

/-- C10: for `k ≤ len(contents)`, the empty-range call `extract k k`
returns the empty sequence and leaves the contents unchanged, yet the
cursor is decremented by `k` whenever `k < cursor` (and unchanged
otherwise). -/
theorem extract_empty_range (T : Type) (l : Lexer T) (k : Nat)
    (hk : k ≤ l.contents.length) :
    (l.extract k k).1 = [] ∧
    (l.extract k k).2.contents = l.contents ∧
    (l.extract k k).2.cursor
      = (if k < l.cursor then l.cursor - k else l.cursor) := by
  have h1 : ¬ (k ≤ l.cursor ∧ l.cursor < k) := by omega
  refine ⟨?_, ?_, ?_⟩
  · simp [Lexer.extract]
  · simp [Lexer.extract]
  · simp only [Lexer.extract, h1, if_false]

/-- Witness for C10 at `contents = [10,20,30]`, `cursor = 3`, `extract 2 2`:
nothing is removed but the cursor drops from `3` to `1`. -/
theorem extract_empty_range_witness :
    (({ cursor := 3, contents := [10, 20, 30] } :
        Lexer Nat).extract 2 2).1 = [] ∧
    (({ cursor := 3, contents := [10, 20, 30] } :
        Lexer Nat).extract 2 2).2.contents = [10, 20, 30] ∧
    (({ cursor := 3, contents := [10, 20, 30] } :
        Lexer Nat).extract 2 2).2.cursor = (if 2 < 3 then 3 - 2 else 3) :=
  extract_empty_range Nat { cursor := 3, contents := [10, 20, 30] } 2
    (by decide)

/-- C2 counterexample: the cursor invariant is NOT preserved by every
operation.  Start from `new [10,20,30]`, move the cursor to `3` with
`set_pos` (still a legal position, `3 = len`), then run the in-bounds call
`extract 1 3`.  The pre-call cursor equals `end`, so the source leaves it
untouched at `3`, while the contents shrink to `[10]` of length `1`:
the post-call cursor `3` exceeds the new length `1`. -/
theorem cursor_invariant_cex :
    (Lexer.new [10, 20, 30]).set_pos 3
        = .ok ({ cursor := 3, contents := [10, 20, 30] } : Lexer Nat) ∧
    ({ cursor := 3, contents := [10, 20, 30] } : Lexer Nat).cursorInv ∧
    1 ≤ 3 ∧ 3 ≤ ([10, 20, 30] : List Nat).length ∧
    ¬ (({ cursor := 3, contents := [10, 20, 30] } :
        Lexer Nat).extract 1 3).2.cursorInv := by
  refine ⟨rfl, by decide, by decide, by decide, ?_⟩
  decide

/-- C2 amended: construction establishes the invariant; an in-bounds
`extract` preserves it provided the pre-call cursor is not exactly `stop`
(= `range.end`); `set_pos` always succeeds with the requested cursor and
the result satisfies the invariant exactly when `position ≤ len(contents)`;
the `contents`/`pos` reads do not change state at all. -/
theorem cursor_invariant_ops (T : Type) (l : Lexer T) (c : List T)
    (start stop p : Nat) (hinv : l.cursorInv)
    (hse : start ≤ stop) (hlen : stop ≤ l.contents.length) :
    (Lexer.new c).cursorInv ∧
    (l.cursor ≠ stop → (l.extract start stop).2.cursorInv) ∧
    (l.set_pos p = .ok { cursor := p, contents := l.contents } ∧
      (({ cursor := p, contents := l.contents } : Lexer T).cursorInv
        ↔ p ≤ l.contents.length)) ∧
    l.contentsView = l.contents ∧ l.pos = l.cursor := by
  refine ⟨?_, ?_, ⟨rfl, Iff.rfl⟩, rfl, rfl⟩
  · simp [Lexer.new, Lexer.cursorInv]
  · intro hne
    unfold Lexer.cursorInv at hinv ⊢
    simp only [Lexer.extract, List.length_append, List.length_take,
      List.length_drop]
    split_ifs <;> omega

/-- Witness for the amended C2 at `contents = [10,20]`, `cursor = 2`,
`extract 0 1`, `set_pos 1`. -/
theorem cursor_invariant_ops_witness :
    (Lexer.new [7]).cursorInv ∧
    (({ cursor := 2, contents := [10, 20] } : Lexer Nat).cursor ≠ 1 →
      (({ cursor := 2, contents := [10, 20] } :
        Lexer Nat).extract 0 1).2.cursorInv) ∧
    (({ cursor := 2, contents := [10, 20] } : Lexer Nat).set_pos 1
        = .ok { cursor := 1, contents := [10, 20] } ∧
      (({ cursor := 1, contents := [10, 20] } : Lexer Nat).cursorInv
        ↔ 1 ≤ ([10, 20] : List Nat).length)) ∧
    ({ cursor := 2, contents := [10, 20] } : Lexer Nat).contentsView
        = [10, 20] ∧
    ({ cursor := 2, contents := [10, 20] } : Lexer Nat).pos = 2 :=
  cursor_invariant_ops Nat { cursor := 2, contents := [10, 20] } [7] 0 1 1
    (by decide) (by decide) (by decide)

/-- C8: `set_pos` never fails: for every lexer and every position (also
positions beyond the contents length) it returns `Ok`, the cursor is
overwritten with exactly the requested position, and the contents are
untouched. -/
theorem set_pos_always_ok (T : Type) (l : Lexer T) (p : Nat) :
    (∀ e : IoError, l.set_pos p ≠ .error e) ∧
    l.set_pos p = .ok { cursor := p, contents := l.contents } := by
  exact ⟨fun e h => by simp [Lexer.set_pos] at h, rfl⟩

/-- C9: construction from any input sequence (empty included) yields cursor
`0` and `contents()` returning exactly the input, element for element. -/
theorem new_initial_state (T : Type) (c : List T) :
    (Lexer.new c).pos = 0 ∧ (Lexer.new c).contentsView = c :=
  ⟨rfl, rfl⟩

/-- C6: the bridged `Token::next_token` is exactly the spec's
fresh-default-scope call (the scoped variant invoked once on a freshly
default-constructed scope, with the resulting scope discarded), and after a
first bridged call succeeded — whatever mutated scope `s₁` it produced and
discarded — the next bridged call is again the fresh-default-scope call, so
no scope mutation of one bridged call is observable by the next. -/
theorem bridge_fresh_default_scope (T scope tok err : Type) (dflt : scope)
    (f : ScopedNext T scope tok err) :
    (∀ l : Lexer T, bridgeNext dflt f l = specFreshScopeCall dflt f l) ∧
    (∀ (l l₁ : Lexer T) (t₁ : tok) (s₁ : scope),
      f l dflt = .ok (t₁, l₁, s₁) →
      bridgeNext dflt f l₁ = specFreshScopeCall dflt f l₁) := by
  have key : ∀ l : Lexer T,
      bridgeNext dflt f l = specFreshScopeCall dflt f l := by
    intro l
    unfold bridgeNext specFreshScopeCall
    cases h : f l dflt with
    | error e => simp [Except.map]
    | ok r => obtain ⟨t, l', s⟩ := r; simp [Except.map]
  exact ⟨key, fun l l₁ t₁ s₁ h => key l₁⟩

/-- A sample scoped tokenizer for concrete evaluation: the produced token is
the incoming scope value, the cursor advances by one, the scope increments —
so any scope persistence across calls would be visible in the tokens. -/
def exScoped : ScopedNext Nat Nat Nat Nat :=
  fun l s => .ok (s, { l with cursor := l.cursor + 1 }, s + 1)

/-- Witness for C6: after `exScoped` ran once from lexer `⟨0,[7]⟩` with the
default scope `0` (producing the discarded scope `1`), the second bridged
call on the resulting lexer `⟨1,[7]⟩` is still the fresh-default-scope
call. -/
theorem bridge_fresh_default_scope_witness :
    bridgeNext 0 exScoped { cursor := 1, contents := [7] }
      = specFreshScopeCall 0 exScoped { cursor := 1, contents := [7] } :=
  (bridge_fresh_default_scope Nat Nat Nat Nat 0 exScoped).2
    { cursor := 0, contents := [7] } { cursor := 1, contents := [7] } 0 1 rfl

/-- C7: if, during `tokenize_until_end`, the first `k` iterations pass the
loop guard and produce tokens successfully and the `(k+1)`-st `next_token`
call fails with `e`, then (given enough fuel) the whole run makes exactly
`k + 1` calls — none after the failure — and `tokenize_until_end` returns
exactly `Err(e)`: the `k` already-produced tokens are discarded. -/
theorem tokenize_error_all_or_nothing (T tok err : Type)
    (next : NextToken T tok err) (fuel k : Nat)
    (l fail_state : Lexer T) (e : err)
    (hrun : runOk next k l = some fail_state)
    (hnoend : fail_state.is_end = false)
    (herr : next fail_state = .error e)
    (hfuel : k < fuel) :
    tokenizeSteps next fuel l = some (k + 1, .error e) ∧
    tokenize_until_end next fuel l = some (.error e) := by
  have main : ∀ k fuel (l : Lexer T), runOk next k l = some fail_state →
      k < fuel → tokenizeSteps next fuel l = some (k + 1, .error e) := by
    intro k
    induction k with
    | zero =>
      intro fuel l hrun hfuel
      cases fuel with
      | zero => omega
      | succ m =>
        rw [runOk, Option.some.injEq] at hrun
        subst hrun
        simp [tokenizeSteps, hnoend, herr]
    | succ k ih =>
      intro fuel l hrun hfuel
      cases fuel with
      | zero => omega
      | succ m =>
        rw [runOk] at hrun
        by_cases hl : l.is_end
        · simp [hl] at hrun
        · rw [if_neg (by simp [hl])] at hrun
          cases hnext : next l with
          | error e₂ => simp [hnext] at hrun
          | ok r =>
            obtain ⟨t, l'⟩ := r
            simp only [hnext] at hrun
            have step := ih m l' hrun (by omega)
            rw [tokenizeSteps, if_neg (by simp [hl]), hnext]
            simp [step]
  have h1 := main k fuel l hrun hfuel
  exact ⟨h1, by simp [tokenize_until_end, h1]⟩

/-- A sample tokenizer for concrete evaluation: succeeds once (at cursor 0),
fails with error `7` on any later call. -/
def exNext : NextToken Nat Nat Nat :=
  fun l => if l.cursor = 0 then .ok (99, { l with cursor := 1 }) else .error 7

/-- Witness for C7: over `[5, 6]` with `exNext`, the first call succeeds
and the second fails, so the driver makes exactly two calls and returns
`Err(7)` with the first token discarded. -/
theorem tokenize_error_all_or_nothing_witness :
    tokenizeSteps exNext 3 { cursor := 0, contents := [5, 6] }
        = some (1 + 1, .error 7) ∧
    tokenize_until_end exNext 3 { cursor := 0, contents := [5, 6] }
        = some (.error 7) :=
  tokenize_error_all_or_nothing Nat Nat Nat exNext 3 1
    { cursor := 0, contents := [5, 6] } { cursor := 1, contents := [5, 6] } 7
    rfl rfl rfl (by decide)

end BexRs
